import Mathlib

/-!
Verification of the time-series merge-and-retention engine of the
civitai-reaction-stats repository, embedded from `scripts/fetch-stats.js`.

Modelling conventions:
* Reaction counts and per-field deltas are JS numbers holding integers; they
  are modelled as `Int`.
* Timestamps are ISO-8601 strings in the stored JSON; every comparison in the
  engine first converts them with `new Date(ts).getTime()`, so a timestamp is
  modelled directly as its millisecond instant (`Int`).
* A JS object key that may be absent is modelled as `Option`; the idiom
  `x.f || 0` becomes `(x.f).getD 0` (both send an absent key and `0` to `0`).
* `Date.now()` and the run timestamp (`new Date().toISOString()`) are impure
  in the source and are passed to the embedded functions as explicit
  parameters `now` and `ts`.
-/

/-- The five reaction counters carried by every snapshot. -/
structure Counters where
  likes : Int
  hearts : Int
  laughs : Int
  cries : Int
  comments : Int
deriving DecidableEq

/-- A resolved (absolute) snapshot, the element shape produced by
`resolveAllSnapshots` / `resolveSnapshot`:
`{ timestamp, likes, hearts, laughs, cries, comments }`. -/
structure AbsSnap where
  timestamp : Int
  likes : Int
  hearts : Int
  laughs : Int
  cries : Int
  comments : Int
deriving DecidableEq

/-- An encoded snapshot object as stored in the document: optional absolute
fields (`likes` … `comments`), optional delta fields (`dl`, `dh`, `dla`,
`dc`, `dco`), the explicit all-zero-delta marker key `_d` (here `dmark`),
and the aggregate-only `imageCount`. `some v` models a present JS key with
value `v`, `none` models an absent key. -/
structure EncSnap where
  timestamp : Int
  likes : Option Int := none
  hearts : Option Int := none
  laughs : Option Int := none
  cries : Option Int := none
  comments : Option Int := none
  dl : Option Int := none
  dh : Option Int := none
  dla : Option Int := none
  dc : Option Int := none
  dco : Option Int := none
  dmark : Option Int := none
  imageCount : Option Int := none
deriving DecidableEq

/-- `isDelta(snapshot)` (fetch-stats.js:535-538): a snapshot is
delta-encoded iff it has any of the keys `dl`, `dh`, `dla`, `dc`, `dco`,
`_d`.  (The JS `snapshot &&` null-guard has no counterpart in the typed
model.) -/
def isDelta (snapshot : EncSnap) : Bool :=
  snapshot.dl.isSome || snapshot.dh.isSome || snapshot.dla.isSome ||
  snapshot.dc.isSome || snapshot.dco.isSome || snapshot.dmark.isSome

/-- The absolute counters read off a non-delta element
(`snapshots[i].likes || 0`, …). -/
def absCounters (s : EncSnap) : Counters :=
  { likes := s.likes.getD 0
    hearts := s.hearts.getD 0
    laughs := s.laughs.getD 0
    cries := s.cries.getD 0
    comments := s.comments.getD 0 }

/-- Adding the present delta fields of a delta element to an accumulator
(`base.likes += s.dl || 0`, …). -/
def addDeltas (base : Counters) (s : EncSnap) : Counters :=
  { likes := base.likes + s.dl.getD 0
    hearts := base.hearts + s.dh.getD 0
    laughs := base.laughs + s.dla.getD 0
    cries := base.cries + s.dc.getD 0
    comments := base.comments + s.dco.getD 0 }

def zeroCounters : Counters := ⟨0, 0, 0, 0, 0⟩

/-- Pair an accumulator value with a timestamp, as in
`result.push({ timestamp: s.timestamp, ...current })`. -/
def withTimestamp (ts : Int) (c : Counters) : AbsSnap :=
  { timestamp := ts, likes := c.likes, hearts := c.hearts,
    laughs := c.laughs, cries := c.cries, comments := c.comments }

/-- One iteration of the `resolveAllSnapshots` loop (fetch-stats.js:583-600):
a delta adds its present fields to the accumulator, an absolute element
replaces the accumulator with its own fields. -/
def resolveStep (current : Counters) (s : EncSnap) : Counters :=
  if isDelta s then addDeltas current s else absCounters s

def resolveAllAux (current : Counters) : List EncSnap → List AbsSnap
  | [] => []
  | s :: rest =>
      let next := resolveStep current s
      withTimestamp s.timestamp next :: resolveAllAux next rest

/-- `resolveAllSnapshots(snapshots)` (fetch-stats.js:579-604): resolve all
snapshots to absolute values, starting from an all-zero accumulator. -/
def resolveAllSnapshots (snapshots : List EncSnap) : List AbsSnap :=
  resolveAllAux zeroCounters snapshots

/-- The backward walk of `resolveSnapshot` (fetch-stats.js:548-559): from
`index` down to `0`, stop at the first non-delta element, returning its
absolute counters together with the replay start index `i + 1`; if every
element in range is a delta the loop falls through with the zero base and
start index `0`.  An out-of-range read keeps scanning; it is unreachable
when the function is applied to a valid index, as in the source. -/
def scanBack (snapshots : List EncSnap) : Nat → Counters × Nat
  | 0 =>
      match snapshots[0]? with
      | some s => if isDelta s then (zeroCounters, 0) else (absCounters s, 1)
      | none => (zeroCounters, 0)
  | i + 1 =>
      match snapshots[i + 1]? with
      | some s => if isDelta s then scanBack snapshots i else (absCounters s, i + 2)
      | none => scanBack snapshots i

/-- The forward replay loop of `resolveSnapshot` (fetch-stats.js:562-571),
recursing on the number of remaining iterations: starting at position `i`,
process `count` elements, adding the delta fields of each delta element. -/
def replayFrom (snapshots : List EncSnap) (base : Counters) (i : Nat) : Nat → Counters
  | 0 => base
  | count + 1 =>
      let base' :=
        match snapshots[i]? with
        | some s => if isDelta s then addDeltas base s else base
        | none => base
      replayFrom snapshots base' (i + 1) count

/-- `resolveSnapshot(snapshots, index)` (fetch-stats.js:544-574): resolve the
single element at `index` by walking backward to the nearest absolute
element and replaying deltas forward. -/
def resolveSnapshot (snapshots : List EncSnap) (index : Nat) : AbsSnap :=
  let p := scanBack snapshots index
  let c := replayFrom snapshots p.1 p.2 (index + 1 - p.2)
  withTimestamp (((snapshots[index]?).map EncSnap.timestamp).getD 0) c

/-- The first element of `encodeAsDeltas`' result is the input object itself
(`result = [absoluteSnapshots[0]]`); in the typed model this is its
injection into the encoded-object shape, carrying exactly the absolute
fields. -/
def AbsSnap.toEnc (a : AbsSnap) : EncSnap :=
  { timestamp := a.timestamp, likes := some a.likes, hearts := some a.hearts,
    laughs := some a.laughs, cries := some a.cries, comments := some a.comments }

/-- The counters carried by an absolute snapshot. -/
def AbsSnap.counters (a : AbsSnap) : Counters :=
  ⟨a.likes, a.hearts, a.laughs, a.cries, a.comments⟩

/-- Loop body of `encodeAsDeltas` (fetch-stats.js:612-625): the delta object
built from two consecutive absolute snapshots.  A delta field is present
iff its difference is non-zero (JS assigns the key only when the difference
is truthy), and the `_d` marker is added exactly when no delta field is
present, i.e. when every difference is zero. -/
def mkDelta (prev curr : AbsSnap) : EncSnap :=
  let dl := curr.likes - prev.likes
  let dh := curr.hearts - prev.hearts
  let dla := curr.laughs - prev.laughs
  let dc := curr.cries - prev.cries
  let dco := curr.comments - prev.comments
  { timestamp := curr.timestamp
    dl := if dl ≠ 0 then some dl else none
    dh := if dh ≠ 0 then some dh else none
    dla := if dla ≠ 0 then some dla else none
    dc := if dc ≠ 0 then some dc else none
    dco := if dco ≠ 0 then some dco else none
    dmark := if dl = 0 ∧ dh = 0 ∧ dla = 0 ∧ dc = 0 ∧ dco = 0 then some 1 else none }

def encodeAux (prev : AbsSnap) : List AbsSnap → List EncSnap
  | [] => []
  | curr :: rest => mkDelta prev curr :: encodeAux curr rest

/-- `encodeAsDeltas(absoluteSnapshots)` (fetch-stats.js:609-628): the first
snapshot stays absolute, the rest become deltas against their predecessor. -/
def encodeAsDeltas : List AbsSnap → List EncSnap
  | [] => []
  | a :: rest => a.toEnc :: encodeAux a rest

/-! ### Retention downsampler (fetch-stats.js:464-530)

`aggregateSnapshots` and `applyRetentionPolicy` only read `.timestamp` from
the objects they shuffle, so (as in dynamically typed JS) they are embedded
polymorphically with an explicit timestamp accessor `f`.  The engine applies
them both to resolved snapshots and, for the aggregate history, to resolved
snapshots aliased with their `imageCount` (modelled as pairs). -/

/-- Data retention thresholds (fetch-stats.js:36-37). -/
def HOURLY_RETENTION_DAYS : Int := 7

def SIX_HOUR_RETENTION_DAYS : Int := 30

/-- `Math.floor(timestamp / intervalMs) * intervalMs`: the epoch-anchored
bucket key.  `Int.ediv` is floor division for the positive divisors used
here, matching `Math.floor` on the quotient. -/
def bucketStart (intervalMs ts : Int) : Int :=
  ts.ediv intervalMs * intervalMs

/-- Loop state of `aggregateSnapshots` (fetch-stats.js:470-484):
`some (currentBucketStart, currentBucket)` once the first element has been
seen, `none` before. -/
def aggAux (f : α → Int) (intervalMs : Int) :
    Option (Int × α) → List α → List α
  | none, [] => []
  | some cur, [] => [cur.2]
  | none, s :: rest => aggAux f intervalMs (some (bucketStart intervalMs (f s), s)) rest
  | some cur, s :: rest =>
      let b := bucketStart intervalMs (f s)
      if cur.1 ≠ b then
        cur.2 :: aggAux f intervalMs (some (b, s)) rest
      else
        aggAux f intervalMs (some (b, s)) rest

/-- `aggregateSnapshots(snapshots, intervalHours)` (fetch-stats.js:464-491):
group snapshots into epoch-anchored `intervalHours`-hour buckets, keeping
the last value seen in each run of equal consecutive bucket keys. -/
def aggregateSnapshots (f : α → Int) (snapshots : List α) (intervalHours : Int) : List α :=
  aggAux f (intervalHours * 60 * 60 * 1000) none snapshots

/-- Tier test of the partition loop (fetch-stats.js:509): last 7 days,
kept at full resolution. -/
def inHourlyTier (now ts : Int) : Bool :=
  decide (now - HOURLY_RETENTION_DAYS * 24 * 60 * 60 * 1000 ≤ ts)

/-- Tier test (fetch-stats.js:512): 7-30 days old, aggregated to 6-hour
buckets. -/
def inSixHourTier (now ts : Int) : Bool :=
  !inHourlyTier now ts && decide (now - SIX_HOUR_RETENTION_DAYS * 24 * 60 * 60 * 1000 ≤ ts)

/-- Tier test (fetch-stats.js:515 `else`): older than 30 days, aggregated to
daily buckets. -/
def inDailyTier (now ts : Int) : Bool :=
  !inHourlyTier now ts && !decide (now - SIX_HOUR_RETENTION_DAYS * 24 * 60 * 60 * 1000 ≤ ts)

/-- The ascending-timestamp comparison of the final
`result.sort((a, b) => new Date(a.timestamp) - new Date(b.timestamp))`. -/
def tsLe (f : α → Int) (a b : α) : Prop :=
  f a ≤ f b

instance (f : α → Int) : DecidableRel (tsLe f) := fun a b => by
  unfold tsLe; infer_instance

/-- `applyRetentionPolicy(snapshots)` (fetch-stats.js:496-530).  The source
reads the reference time from `Date.now()`; it is passed here as `now`.
The single partition loop is rendered as the three order-preserving filters
it computes, and the final stable `Array.prototype.sort` as a stable
insertion sort with the same comparator. -/
def applyRetentionPolicy (f : α → Int) (now : Int) (snapshots : List α) : List α :=
  let hourlySnapshots := snapshots.filter (fun s => inHourlyTier now (f s))
  let sixHourSnapshots := snapshots.filter (fun s => inSixHourTier now (f s))
  let dailySnapshots := snapshots.filter (fun s => inDailyTier now (f s))
  let aggregatedSixHour := aggregateSnapshots f sixHourSnapshots 6
  let aggregatedDaily := aggregateSnapshots f dailySnapshots 24
  List.insertionSort (tsLe f) (aggregatedDaily ++ aggregatedSixHour ++ hourlySnapshots)

/-! ### Stale-counter guard (fetch-stats.js:658-673) -/

/-- The per-field clamp of `processImages` (fetch-stats.js:664-668):
`Math.max(apiField, lastSnapshot?.field || 0)` — never let stats decrease
due to stale bulk API data. -/
def clampCounters (api last : Counters) : Counters :=
  { likes := max api.likes last.likes
    hearts := max api.hearts last.hearts
    laughs := max api.laughs last.laughs
    cries := max api.cries last.cries
    comments := max api.comments last.comments }

/-- The regression test of the clamp log line (fetch-stats.js:670-671):
some fresh field is strictly below the last known value. -/
def statsRegressed (api last : Counters) : Bool :=
  decide (api.likes < last.likes) || decide (api.hearts < last.hearts) ||
  decide (api.laughs < last.laughs) || decide (api.cries < last.cries) ||
  decide (api.comments < last.comments)

/-! ### Document model and merge engine (fetch-stats.js:634-737, 742-889) -/

/-- The `stats` object of an upstream API image (`img.stats`), with every
count key possibly absent. -/
structure Stats where
  likeCount : Option Int := none
  heartCount : Option Int := none
  laughCount : Option Int := none
  cryCount : Option Int := none
  commentCount : Option Int := none
deriving DecidableEq

/-- A fresh upstream image as consumed by `processImages`.  `img.id` is
converted with `String(img.id)` wherever the engine compares or stores it,
so it is modelled as the string form directly; `url` is the thumbnail URL
field of the upstream object. -/
structure ApiImage where
  id : String
  url : String
  createdAt : Int
  metaPrompt : Option String := none
  stats : Option Stats := none
deriving DecidableEq

/-- One tracked entity of the stored document (fetch-stats.js:712-719). -/
structure ImageEntry where
  id : String
  name : String
  url : String
  thumbnailUrl : String
  createdAt : Int
  snapshots : List EncSnap
deriving DecidableEq

/-- The root persisted object (`stats.json`). -/
structure Document where
  username : String
  lastUpdated : Option Int
  totalSnapshots : List EncSnap
  images : List ImageEntry
deriving DecidableEq

/-- The aggregate snapshot of one run (fetch-stats.js:726-734). -/
structure TotalSnap where
  timestamp : Int
  likes : Int
  hearts : Int
  laughs : Int
  cries : Int
  comments : Int
  imageCount : Int
deriving DecidableEq

/-- `img.stats?.likeCount || 0`, … (fetch-stats.js:648-652). -/
def apiCounters (img : ApiImage) : Counters :=
  { likes := (img.stats.bind Stats.likeCount).getD 0
    hearts := (img.stats.bind Stats.heartCount).getD 0
    laughs := (img.stats.bind Stats.laughCount).getD 0
    cries := (img.stats.bind Stats.cryCount).getD 0
    comments := (img.stats.bind Stats.commentCount).getD 0 }

/-- `img.meta?.prompt?.substring(0, 100)` with the template-string fallback
(fetch-stats.js:714); an empty prompt is falsy in JS and also falls back. -/
def imageName (img : ApiImage) : String :=
  match img.metaPrompt with
  | some p => if p.take 100 = "" then "Image " ++ img.id else p.take 100
  | none => "Image " ++ img.id

/-- `new Map(existingImages.map(img => [img.id, img])).get(String(img.id))`
(fetch-stats.js:638,655): on duplicate ids the later entry wins. -/
def lookupImage (existingImages : List ImageEntry) (id : String) : Option ImageEntry :=
  existingImages.reverse.find? (fun e => e.id == id)

/-- The per-entity delta object of `processImages` (fetch-stats.js:695-700):
a field is present iff its difference is non-zero; no `_d` marker is added
on this path. -/
def mkEntityDelta (ts : Int) (last curr : Counters) : EncSnap :=
  { timestamp := ts
    dl := if curr.likes - last.likes ≠ 0 then some (curr.likes - last.likes) else none
    dh := if curr.hearts - last.hearts ≠ 0 then some (curr.hearts - last.hearts) else none
    dla := if curr.laughs - last.laughs ≠ 0 then some (curr.laughs - last.laughs) else none
    dc := if curr.cries - last.cries ≠ 0 then some (curr.cries - last.cries) else none
    dco := if curr.comments - last.comments ≠ 0 then some (curr.comments - last.comments) else none }

/-- The append-if-changed step of `processImages` (fetch-stats.js:681-705):
a first snapshot is stored absolute; a changed snapshot is stored as a
delta, pushed only when it carries at least one delta key
(`Object.keys(delta).length > 1`); an unchanged snapshot appends nothing. -/
def mergeEntityHistory (ts : Int) (snapshots : List EncSnap)
    (lastSnapshot : Option AbsSnap) (corrected : Counters) : List EncSnap :=
  match lastSnapshot with
  | none => snapshots ++ [(withTimestamp ts corrected).toEnc]
  | some ls =>
      if ls.counters ≠ corrected then
        let delta := mkEntityDelta ts ls.counters corrected
        if delta.dl.isSome || delta.dh.isSome || delta.dla.isSome ||
            delta.dc.isSome || delta.dco.isSome then
          snapshots ++ [delta]
        else snapshots
      else snapshots

/-- The per-image body of the `apiImages.map` in `processImages`
(fetch-stats.js:647-720): look up the existing history, resolve its last
snapshot, clamp the fresh counters against it, append if changed, then
resolve → retain → re-encode.  Returns the rebuilt entry together with the
clamped counters that the run adds to its totals. -/
def processImage (ts now : Int) (existingImages : List ImageEntry) (img : ApiImage) :
    ImageEntry × Counters :=
  let api := apiCounters img
  let existingImage := lookupImage existingImages img.id
  let snapshots0 := (existingImage.map ImageEntry.snapshots).getD []
  let lastSnapshot : Option AbsSnap :=
    if snapshots0.length > 0 then some (resolveSnapshot snapshots0 (snapshots0.length - 1))
    else none
  let corrected := clampCounters api ((lastSnapshot.map AbsSnap.counters).getD zeroCounters)
  let snapshots1 := mergeEntityHistory ts snapshots0 lastSnapshot corrected
  let snapshots2 :=
    encodeAsDeltas (applyRetentionPolicy AbsSnap.timestamp now (resolveAllSnapshots snapshots1))
  ({ id := img.id
     name := imageName img
     url := "https://civitai.com/images/" ++ img.id
     thumbnailUrl := img.url
     createdAt := img.createdAt
     snapshots := snapshots2 }, corrected)

def addCounters (a b : Counters) : Counters :=
  ⟨a.likes + b.likes, a.hearts + b.hearts, a.laughs + b.laughs,
   a.cries + b.cries, a.comments + b.comments⟩

/-- `processImages(apiImages, existingImages)` (fetch-stats.js:634-737):
rebuild the entity list from the fresh fetch (note: only freshly fetched
images produce entries) and form the aggregate snapshot of the run. -/
def processImages (ts now : Int) (apiImages : List ApiImage)
    (existingImages : List ImageEntry) : List ImageEntry × TotalSnap :=
  let pairs := apiImages.map (processImage ts now existingImages)
  let images := pairs.map Prod.fst
  let total := pairs.foldl (fun acc p => addCounters acc p.2) zeroCounters
  (images,
   { timestamp := ts, likes := total.likes, hearts := total.hearts,
     laughs := total.laughs, cries := total.cries, comments := total.comments,
     imageCount := images.length })

/-- The aggregate delta pushed by `main` when history exists
(fetch-stats.js:800-809): it always carries the run's `imageCount`, and a
zero-change delta still carries the `_d` marker — unlike entity histories
there is no unchanged-run suppression on this path. -/
def totalDelta (t : TotalSnap) (prev : AbsSnap) : EncSnap :=
  { timestamp := t.timestamp
    imageCount := some t.imageCount
    dl := if t.likes - prev.likes ≠ 0 then some (t.likes - prev.likes) else none
    dh := if t.hearts - prev.hearts ≠ 0 then some (t.hearts - prev.hearts) else none
    dla := if t.laughs - prev.laughs ≠ 0 then some (t.laughs - prev.laughs) else none
    dc := if t.cries - prev.cries ≠ 0 then some (t.cries - prev.cries) else none
    dco := if t.comments - prev.comments ≠ 0 then some (t.comments - prev.comments) else none
    dmark :=
      if t.likes - prev.likes = 0 ∧ t.hearts - prev.hearts = 0 ∧
          t.laughs - prev.laughs = 0 ∧ t.cries - prev.cries = 0 ∧
          t.comments - prev.comments = 0 then some 1
      else none }

/-- The first aggregate snapshot, pushed absolute (fetch-stats.js:811). -/
def totalToEnc (t : TotalSnap) : EncSnap :=
  { timestamp := t.timestamp, likes := some t.likes, hearts := some t.hearts,
    laughs := some t.laughs, cries := some t.cries, comments := some t.comments,
    imageCount := some t.imageCount }

/-- Appending the run's aggregate snapshot to the stored aggregate history
(fetch-stats.js:797-812): as a delta against the resolved last point when
history exists, absolute otherwise.  A new point is pushed on every run. -/
def pushTotalSnapshot (totals : List EncSnap) (t : TotalSnap) : List EncSnap :=
  if totals.length > 0 then
    totals ++ [totalDelta t (resolveSnapshot totals (totals.length - 1))]
  else totals ++ [totalToEnc t]

/-- The aggregate-history retention pass of `main` (fetch-stats.js:814-831):
resolve, attach each point's `imageCount` from the encoded history at the
same index (lines 818-822; the attachment is modelled by pairing), retain,
re-encode, and re-attach `imageCount` from the retained points at the same
index (lines 826-830). -/
def retainTotals (now : Int) (totals : List EncSnap) : List EncSnap :=
  let resolved := resolveAllSnapshots totals
  let resolvedIC : List (AbsSnap × Option Int) := resolved.zip (totals.map EncSnap.imageCount)
  let retained := applyRetentionPolicy (fun p => p.1.timestamp) now resolvedIC
  let encoded := encodeAsDeltas (retained.map Prod.fst)
  (encoded.zip (retained.map Prod.snd)).map (fun p =>
    match p.2 with
    | some v => { p.1 with imageCount := some v }
    | none => p.1)

/-- Outcome of one invocation of `main`: an early return with no images
(fetch-stats.js:756-759, nothing saved), an integrity-gate abort
(`process.exit(1)`, fetch-stats.js:873, nothing saved), or a successful
hand-off of the merged document to `updateGist` (fetch-stats.js:882). -/
inductive RunOutcome
  | noImages
  | aborted
  | saved (doc : Document)
deriving DecidableEq

/-- `images.reduce((sum, img) => sum + (img.snapshots?.length || 0), 0)`
(fetch-stats.js:845-847). -/
def imageSnapshotCount (images : List ImageEntry) : Nat :=
  images.foldl (fun sum img => sum + img.snapshots.length) 0

/-- The data-integrity gate of `main` (fetch-stats.js:842-879): when the
aggregate history counted just after the push (`snapshotsBefore`) has more
than one point, require at least as many stored image snapshots as tracked
images.  `true` means the run may proceed to save. -/
def integrityCheck (snapshotsBefore : Nat) (doc : Document) : Bool :=
  if snapshotsBefore > 1 then
    !decide (imageSnapshotCount doc.images < doc.images.length)
  else true

/-- The save decision at the end of `main`: abort via `process.exit(1)`
before `updateGist` when the gate trips, otherwise call `updateGist` with
the merged document (fetch-stats.js:842-882). -/
def finalizeRun (snapshotsBefore : Nat) (doc : Document) : RunOutcome :=
  if integrityCheck snapshotsBefore doc then RunOutcome.saved doc else RunOutcome.aborted

/-- The merge phase of `main` (fetch-stats.js:742-889), from the point where
the fresh images and the existing document are in hand: early-return when
the fetch produced no images, process the images against the existing
entities, push and retain the aggregate history, rebuild the document, and
run the integrity gate.  `saved doc` is the document handed to
`updateGist`; in every other outcome the stored document is untouched. -/
def runMerge (username : String) (existingData : Document) (apiImages : List ApiImage)
    (ts now : Int) : RunOutcome :=
  if apiImages.length = 0 then RunOutcome.noImages
  else
    let pr := processImages ts now apiImages existingData.images
    let totals1 := pushTotalSnapshot existingData.totalSnapshots pr.2
    let snapshotsBefore := totals1.length
    let totals2 := retainTotals now totals1
    let doc : Document :=
      { username := username
        lastUpdated := some pr.2.timestamp
        totalSnapshots := totals2
        images := pr.1 }
    finalizeRun snapshotsBefore doc

/-! ### Resolver / encoder lemmas -/

theorem isDelta_toEnc (a : AbsSnap) : isDelta a.toEnc = false := rfl

theorem resolveStep_toEnc (c : Counters) (a : AbsSnap) :
    resolveStep c a.toEnc = a.counters := rfl

theorem withTimestamp_counters (a : AbsSnap) :
    withTimestamp a.timestamp a.counters = a := rfl

theorem isDelta_mkDelta (prev curr : AbsSnap) : isDelta (mkDelta prev curr) = true := by
  simp only [isDelta, mkDelta]
  by_cases h1 : curr.likes - prev.likes ≠ 0 <;>
    by_cases h2 : curr.hearts - prev.hearts ≠ 0 <;>
    by_cases h3 : curr.laughs - prev.laughs ≠ 0 <;>
    by_cases h4 : curr.cries - prev.cries ≠ 0 <;>
    by_cases h5 : curr.comments - prev.comments ≠ 0 <;>
    simp_all

theorem resolveStep_mkDelta (prev curr : AbsSnap) :
    resolveStep prev.counters (mkDelta prev curr) = curr.counters := by
  simp only [resolveStep, isDelta_mkDelta, if_true]
  simp only [addDeltas, mkDelta, AbsSnap.counters, Counters.mk.injEq]
  refine ⟨?_, ?_, ?_, ?_, ?_⟩ <;> split_ifs <;> simp_all <;> omega

theorem mkDelta_timestamp (prev curr : AbsSnap) :
    (mkDelta prev curr).timestamp = curr.timestamp := rfl

theorem resolveAllAux_encodeAux (rest : List AbsSnap) :
    ∀ prev : AbsSnap, resolveAllAux prev.counters (encodeAux prev rest) = rest := by
  induction rest with
  | nil => intro prev; rfl
  | cons curr rest ih =>
      intro prev
      show withTimestamp (mkDelta prev curr).timestamp
            (resolveStep prev.counters (mkDelta prev curr)) ::
          resolveAllAux (resolveStep prev.counters (mkDelta prev curr))
            (encodeAux curr rest) = curr :: rest
      rw [resolveStep_mkDelta, mkDelta_timestamp, withTimestamp_counters, ih]

/-- C2: for every chronologically ordered sequence `s` of absolute snapshots
(timestamp plus the five integer counter fields),
`resolveAllSnapshots (encodeAsDeltas s)` equals `s` element for element. -/
theorem c2_round_trip (s : List AbsSnap)
    (hchrono : List.Sorted (fun a b : AbsSnap => a.timestamp ≤ b.timestamp) s) :
    resolveAllSnapshots (encodeAsDeltas s) = s := by
  cases s with
  | nil => rfl
  | cons a rest =>
      show withTimestamp a.toEnc.timestamp (resolveStep zeroCounters a.toEnc) ::
          resolveAllAux (resolveStep zeroCounters a.toEnc) (encodeAux a rest) = a :: rest
      rw [resolveStep_toEnc]
      exact congrArg₂ (· :: ·) (withTimestamp_counters a) (resolveAllAux_encodeAux rest a)

theorem c2_round_trip_witness :
    resolveAllSnapshots (encodeAsDeltas
        [⟨0, 1, 2, 3, 4, 5⟩, ⟨100, 1, 2, 3, 4, 5⟩, ⟨200, 7, 2, 3, 4, 9⟩]) =
      [⟨0, 1, 2, 3, 4, 5⟩, ⟨100, 1, 2, 3, 4, 5⟩, ⟨200, 7, 2, 3, 4, 9⟩] :=
  c2_round_trip _ (by decide)

theorem encodeAux_isDelta (l : List AbsSnap) :
    ∀ (prev : AbsSnap) (i : Nat) (hi : i < (encodeAux prev l).length),
      isDelta ((encodeAux prev l).get ⟨i, hi⟩) = true := by
  induction l with
  | nil => intro prev i hi; simp [encodeAux] at hi
  | cons curr rest ih =>
      intro prev i hi
      cases i with
      | zero => exact isDelta_mkDelta prev curr
      | succ i => exact ih curr i _

/-- C3: for every non-empty absolute snapshot sequence, every element of
`encodeAsDeltas` output at index ≥ 1 is classified as a delta by `isDelta`
and the element at index 0 is classified as absolute; moreover a delta all
of whose field differences are zero carries the explicit `_d` marker, so an
all-zero delta is never mistaken for an absolute all-zero snapshot. -/
theorem c3_delta_discriminant (a : AbsSnap) (rest : List AbsSnap) :
    (∀ (i : Nat) (hi : i < (encodeAsDeltas (a :: rest)).length),
        isDelta ((encodeAsDeltas (a :: rest)).get ⟨i, hi⟩) = decide (1 ≤ i))
    ∧ (∀ prev curr : AbsSnap,
        curr.likes = prev.likes → curr.hearts = prev.hearts →
        curr.laughs = prev.laughs → curr.cries = prev.cries →
        curr.comments = prev.comments →
        (mkDelta prev curr).dmark = some 1) := by
  constructor
  · intro i hi
    cases i with
    | zero => exact isDelta_toEnc a
    | succ i =>
        have h := encodeAux_isDelta rest a i (by
          simpa [encodeAsDeltas, encodeAux] using Nat.lt_of_succ_lt_succ hi)
        simpa [encodeAsDeltas] using h
  · intro prev curr h1 h2 h3 h4 h5
    simp [mkDelta, h1, h2, h3, h4, h5]

theorem c3_delta_discriminant_witness :
    isDelta ((encodeAsDeltas [⟨0, 1, 1, 1, 1, 1⟩, ⟨50, 1, 1, 1, 1, 1⟩]).get
        ⟨1, by decide⟩) = decide (1 ≤ 1)
    ∧ (mkDelta ⟨0, 1, 1, 1, 1, 1⟩ ⟨50, 1, 1, 1, 1, 1⟩).dmark = some 1 :=
  ⟨(c3_delta_discriminant ⟨0, 1, 1, 1, 1, 1⟩ [⟨50, 1, 1, 1, 1, 1⟩]).1 1 (by decide),
   (c3_delta_discriminant ⟨0, 1, 1, 1, 1, 1⟩ []).2 _ _ rfl rfl rfl rfl rfl⟩

/-- C6: the corrected counters equal the field-wise maximum of the fresh and
last-known counters, and the regression flag is raised iff some fresh field
is strictly below the corresponding last-known field. -/
theorem c6_stale_counter_guard (fresh lastKnown : Counters) :
    clampCounters fresh lastKnown =
      ⟨max fresh.likes lastKnown.likes, max fresh.hearts lastKnown.hearts,
       max fresh.laughs lastKnown.laughs, max fresh.cries lastKnown.cries,
       max fresh.comments lastKnown.comments⟩
    ∧ (statsRegressed fresh lastKnown = true ↔
        (fresh.likes < lastKnown.likes ∨ fresh.hearts < lastKnown.hearts ∨
         fresh.laughs < lastKnown.laughs ∨ fresh.cries < lastKnown.cries ∨
         fresh.comments < lastKnown.comments)) := by
  refine ⟨rfl, ?_⟩
  simp [statsRegressed, or_assoc]

theorem resolveAllAux_length (l : List EncSnap) :
    ∀ c, (resolveAllAux c l).length = l.length := by
  induction l with
  | nil => intro c; rfl
  | cons s rest ih => intro c; simp [resolveAllAux, ih]

theorem resolveAllAux_map_timestamp (l : List EncSnap) :
    ∀ c, (resolveAllAux c l).map AbsSnap.timestamp = l.map EncSnap.timestamp := by
  induction l with
  | nil => intro c; rfl
  | cons s rest ih =>
      intro c
      simp [resolveAllAux, ih, withTimestamp]

theorem encodeAux_length (l : List AbsSnap) :
    ∀ prev, (encodeAux prev l).length = l.length := by
  induction l with
  | nil => intro prev; rfl
  | cons curr rest ih => intro prev; simp [encodeAux, ih]

theorem encodeAux_map_timestamp (l : List AbsSnap) :
    ∀ prev, (encodeAux prev l).map EncSnap.timestamp = l.map AbsSnap.timestamp := by
  induction l with
  | nil => intro prev; rfl
  | cons curr rest ih =>
      intro prev
      simp [encodeAux, ih, mkDelta_timestamp]

/-- C10: `resolveAllSnapshots` and `encodeAsDeltas` each return a sequence of
exactly the length of their input with the same timestamps in the same
order; both map the empty sequence to the empty sequence, and the first
element of `encodeAsDeltas`' output is the first input snapshot emitted
unchanged (as the absolute encoded object).  These are the only pipeline
stages besides the retention downsampler, so only the downsampler removes
points. -/
theorem c10_structure_preservation :
    (∀ l : List EncSnap, (resolveAllSnapshots l).length = l.length ∧
        (resolveAllSnapshots l).map AbsSnap.timestamp = l.map EncSnap.timestamp)
    ∧ (∀ s : List AbsSnap, (encodeAsDeltas s).length = s.length ∧
        (encodeAsDeltas s).map EncSnap.timestamp = s.map AbsSnap.timestamp)
    ∧ resolveAllSnapshots [] = []
    ∧ encodeAsDeltas [] = []
    ∧ ∀ (a : AbsSnap) (rest : List AbsSnap),
        (encodeAsDeltas (a :: rest)).head? = some a.toEnc := by
  refine ⟨fun l => ⟨resolveAllAux_length l _, resolveAllAux_map_timestamp l _⟩,
    fun s => ?_, rfl, rfl, fun a rest => rfl⟩
  cases s with
  | nil => exact ⟨rfl, rfl⟩
  | cons a rest =>
      refine ⟨?_, ?_⟩
      · simp [encodeAsDeltas, encodeAux_length]
      · simp [encodeAsDeltas, encodeAux_map_timestamp, AbsSnap.toEnc]

/-- C1: whenever the previously stored document had more than one
aggregate-total history point, a freshly merged document whose summed
entity snapshot count is strictly below its entity count makes the run
abort: `finalizeRun` (the save decision wrapping `updateGist`) returns
`aborted`, so the persistence capability is never invoked and the stored
document stays untouched.  `snapshotsBefore` in the source is the aggregate
history length measured right after the run's push, i.e.
`(pushTotalSnapshot oldTotals t).length`. -/
theorem c1_integrity_gate (oldTotals : List EncSnap) (t : TotalSnap) (doc : Document)
    (hOld : 1 < oldTotals.length)
    (hLoss : imageSnapshotCount doc.images < doc.images.length) :
    finalizeRun (pushTotalSnapshot oldTotals t).length doc = RunOutcome.aborted := by
  have hlen : (pushTotalSnapshot oldTotals t).length = oldTotals.length + 1 := by
    unfold pushTotalSnapshot; split_ifs <;> simp
  rw [hlen]
  have hgate : integrityCheck (oldTotals.length + 1) doc = false := by
    unfold integrityCheck
    rw [if_pos (show oldTotals.length + 1 > 1 by omega)]
    simp [hLoss]
  unfold finalizeRun
  rw [hgate]
  rfl

theorem c1_integrity_gate_witness :
    finalizeRun
      (pushTotalSnapshot
        [{ timestamp := 0, likes := some 1 }, { timestamp := 1, dmark := some 1 }]
        ⟨2, 1, 0, 0, 0, 0, 1⟩).length
      { username := "u", lastUpdated := none, totalSnapshots := [],
        images := [{ id := "1", name := "n", url := "v", thumbnailUrl := "w",
                     createdAt := 0, snapshots := [] }] } = RunOutcome.aborted :=
  c1_integrity_gate _ _ _ (by decide) (by decide)

/-! ### Resolver equivalence (C7) -/

/-- One guarded replay step at position `j`, the body of the forward loop of
`resolveSnapshot`. -/
def stepAt (snapshots : List EncSnap) (c : Counters) (j : Nat) : Counters :=
  match snapshots[j]? with
  | some s => if isDelta s then addDeltas c s else c
  | none => c

theorem replayFrom_succ (seq : List EncSnap) :
    ∀ (n : Nat) (base : Counters) (i : Nat),
      replayFrom seq base i (n + 1) = stepAt seq (replayFrom seq base i n) (i + n) := by
  intro n
  induction n with
  | zero => intro base i; simp [replayFrom, stepAt]
  | succ n ih =>
      intro base i
      show replayFrom seq (stepAt seq base i) (i + 1) (n + 1) = _
      rw [ih]
      show stepAt seq (replayFrom seq (stepAt seq base i) (i + 1) n) (i + 1 + n) =
        stepAt seq (replayFrom seq (stepAt seq base i) (i + 1) n) (i + (n + 1))
      ring_nf

theorem scanBack_zero_eq (seq : List EncSnap) :
    scanBack seq 0 =
      match seq[0]? with
      | some s => if isDelta s then (zeroCounters, 0) else (absCounters s, 1)
      | none => (zeroCounters, 0) := rfl

theorem scanBack_succ_eq (seq : List EncSnap) (i : Nat) :
    scanBack seq (i + 1) =
      match seq[i + 1]? with
      | some s => if isDelta s then scanBack seq i else (absCounters s, i + 2)
      | none => scanBack seq i := rfl

theorem scanBack_le (seq : List EncSnap) : ∀ i, (scanBack seq i).2 ≤ i + 1 := by
  intro i
  induction i with
  | zero =>
      rw [scanBack_zero_eq]
      cases h : seq[0]? with
      | none => simp
      | some s => by_cases hd : isDelta s <;> simp [hd]
  | succ i ih =>
      rw [scanBack_succ_eq]
      cases h : seq[i + 1]? with
      | none => exact Nat.le_succ_of_le ih
      | some s =>
          by_cases hd : isDelta s
          · simpa [hd] using Nat.le_succ_of_le ih
          · simp [hd]

theorem resolveAllAux_get (l : List EncSnap) :
    ∀ (c : Counters) (i : Nat) (hi : i < l.length),
      (resolveAllAux c l)[i]? =
        some (withTimestamp l[i].timestamp ((l.take (i + 1)).foldl resolveStep c)) := by
  induction l with
  | nil => intro c i hi; simp at hi
  | cons s rest ih =>
      intro c i hi
      cases i with
      | zero => simp [resolveAllAux]
      | succ i =>
          have hi' : i < rest.length := by simpa using hi
          have hcons : resolveAllAux c (s :: rest) =
              withTimestamp s.timestamp (resolveStep c s) ::
                resolveAllAux (resolveStep c s) rest := rfl
          rw [hcons, List.getElem?_cons_succ, ih (resolveStep c s) i hi']
          simp [List.take_succ_cons]

theorem scanBack_replay (seq : List EncSnap) :
    ∀ (i : Nat), i < seq.length →
      replayFrom seq (scanBack seq i).1 (scanBack seq i).2 (i + 1 - (scanBack seq i).2) =
        (seq.take (i + 1)).foldl resolveStep zeroCounters := by
  intro i
  induction i with
  | zero =>
      intro hi
      have h : seq[0]? = some seq[0] := List.getElem?_eq_getElem hi
      have htake : seq.take (0 + 1) = [seq[0]] := by
        rw [List.take_succ]
        simp [h]
      by_cases hd : isDelta seq[0]
      · have hsb : scanBack seq 0 = (zeroCounters, 0) := by
          rw [scanBack_zero_eq, h]
          simp [hd]
        rw [hsb, htake]
        show replayFrom seq (stepAt seq zeroCounters 0) 1 0 = _
        simp [replayFrom, stepAt, h, hd, List.foldl, resolveStep]
      · have hsb : scanBack seq 0 = (absCounters seq[0], 1) := by
          rw [scanBack_zero_eq, h]
          simp [hd]
        rw [hsb, htake]
        simp [replayFrom, List.foldl, resolveStep, hd]
  | succ i ih =>
      intro hi
      have h : seq[i + 1]? = some seq[i + 1] := List.getElem?_eq_getElem hi
      have htake : seq.take (i + 1 + 1) = seq.take (i + 1) ++ [seq[i + 1]] := by
        rw [List.take_succ]
        simp [h]
      by_cases hd : isDelta seq[i + 1]
      · have hsb : scanBack seq (i + 1) = scanBack seq i := by
          rw [scanBack_succ_eq, h]
          simp [hd]
        have hle : (scanBack seq i).2 ≤ i + 1 := scanBack_le seq i
        have hcount : i + 1 + 1 - (scanBack seq i).2 = (i + 1 - (scanBack seq i).2) + 1 := by
          omega
        rw [hsb, hcount, replayFrom_succ]
        have hpos : (scanBack seq i).2 + (i + 1 - (scanBack seq i).2) = i + 1 := by omega
        rw [hpos, ih (by omega), htake, List.foldl_append]
        simp [stepAt, h, hd, resolveStep]
      · have hsb : scanBack seq (i + 1) = (absCounters seq[i + 1], i + 2) := by
          rw [scanBack_succ_eq, h]
          simp [hd]
        rw [hsb, htake, List.foldl_append]
        have hz : i + 1 + 1 - (i + 2) = 0 := by omega
        rw [hz]
        simp [replayFrom, resolveStep, hd]

/-- C7: for every encoded snapshot sequence and every valid index `i`,
`resolveSnapshot seq i` equals the `i`-th element of
`resolveAllSnapshots seq`, including when the sequence begins with a delta
(implicit all-zero base). -/
theorem c7_resolver_equivalence (seq : List EncSnap) (i : Nat) (hi : i < seq.length) :
    (resolveAllSnapshots seq)[i]? = some (resolveSnapshot seq i) := by
  have h : seq[i]? = some seq[i] := List.getElem?_eq_getElem hi
  have hr := scanBack_replay seq i hi
  unfold resolveAllSnapshots
  rw [resolveAllAux_get seq zeroCounters i hi]
  show _ = some (withTimestamp ((Option.map EncSnap.timestamp seq[i]?).getD 0)
    (replayFrom seq (scanBack seq i).1 (scanBack seq i).2 (i + 1 - (scanBack seq i).2)))
  rw [h, hr]
  rfl

theorem c7_resolver_equivalence_witness :
    (resolveAllSnapshots
        [{ timestamp := 5, dl := some 3, dc := some 2 },
         { timestamp := 9, likes := some 10 },
         { timestamp := 12, dmark := some 1 }])[2]? =
      some (resolveSnapshot
        [{ timestamp := 5, dl := some 3, dc := some 2 },
         { timestamp := 9, likes := some 10 },
         { timestamp := 12, dmark := some 1 }] 2) :=
  c7_resolver_equivalence _ 2 (by decide)

/-! ### Retention lemmas (C8, C9) -/

/-- Reference form of the `aggregateSnapshots` loop: keep the last element of
every run of equal consecutive bucket keys. -/
def bucketLasts (f : α → Int) (m : Int) : List α → List α
  | [] => []
  | [s] => [s]
  | s :: t :: rest =>
      if bucketStart m (f s) = bucketStart m (f t) then bucketLasts f m (t :: rest)
      else s :: bucketLasts f m (t :: rest)

theorem bucketLasts_cons₂_eq (f : α → Int) (m : Int) (s t : α) (rest : List α) :
    bucketLasts f m (s :: t :: rest) =
      if bucketStart m (f s) = bucketStart m (f t) then bucketLasts f m (t :: rest)
      else s :: bucketLasts f m (t :: rest) := rfl

theorem aggAux_some (f : α → Int) (m : Int) :
    ∀ (l : List α) (c : α),
      aggAux f m (some (bucketStart m (f c), c)) l = bucketLasts f m (c :: l) := by
  intro l
  induction l with
  | nil => intro c; rfl
  | cons s rest ih =>
      intro c
      show (if bucketStart m (f c) ≠ bucketStart m (f s) then
              c :: aggAux f m (some (bucketStart m (f s), s)) rest
            else aggAux f m (some (bucketStart m (f s), s)) rest) = _
      rw [bucketLasts_cons₂_eq]
      by_cases hb : bucketStart m (f c) = bucketStart m (f s)
      · rw [if_neg (not_not_intro hb), if_pos hb, ih]
      · rw [if_pos hb, if_neg hb, ih]

theorem aggregateSnapshots_eq (f : α → Int) (l : List α) (k : Int) :
    aggregateSnapshots f l k = bucketLasts f (k * 60 * 60 * 1000) l := by
  cases l with
  | nil => rfl
  | cons c rest =>
      show aggAux f (k * 60 * 60 * 1000)
          (some (bucketStart (k * 60 * 60 * 1000) (f c), c)) rest = _
      exact aggAux_some f _ rest c

theorem bucketLasts_sublist (f : α → Int) (m : Int) :
    ∀ l : List α, List.Sublist (bucketLasts f m l) l := by
  intro l
  induction l with
  | nil => exact List.Sublist.refl _
  | cons s rest ih =>
      cases rest with
      | nil => exact List.Sublist.refl _
      | cons t rest2 =>
          rw [bucketLasts_cons₂_eq]
          split_ifs with hb
          · exact ih.cons s
          · exact ih.cons₂ s

theorem bucketLasts_head (f : α → Int) (m : Int) :
    ∀ (l : List α) (s : α), ∃ h t, bucketLasts f m (s :: l) = h :: t ∧
      bucketStart m (f h) = bucketStart m (f s) := by
  intro l
  induction l with
  | nil => intro s; exact ⟨s, [], rfl, rfl⟩
  | cons t rest ih =>
      intro s
      rw [bucketLasts_cons₂_eq]
      split_ifs with hb
      · obtain ⟨h, tl, heq, hbk⟩ := ih t
        exact ⟨h, tl, heq, by rw [hbk, hb]⟩
      · exact ⟨s, _, rfl, rfl⟩

theorem bucketLasts_chain_ne (f : α → Int) (m : Int) :
    ∀ l : List α,
      (bucketLasts f m l).Chain' (fun a b => bucketStart m (f a) ≠ bucketStart m (f b)) := by
  intro l
  induction l with
  | nil => exact List.chain'_nil
  | cons s rest ih =>
      cases rest with
      | nil => simp [bucketLasts]
      | cons t rest2 =>
          rw [bucketLasts_cons₂_eq]
          split_ifs with hb
          · exact ih
          · obtain ⟨h, tl, heq, hbk⟩ := bucketLasts_head f m rest2 t
            rw [heq]
            rw [heq] at ih
            exact List.Chain'.cons (by rw [hbk]; exact hb) ih

theorem bucketLasts_of_chain_ne (f : α → Int) (m : Int) :
    ∀ l : List α,
      l.Chain' (fun a b => bucketStart m (f a) ≠ bucketStart m (f b)) →
      bucketLasts f m l = l := by
  intro l
  induction l with
  | nil => intro _; rfl
  | cons s rest ih =>
      intro hc
      cases rest with
      | nil => rfl
      | cons t rest2 =>
          rw [bucketLasts_cons₂_eq]
          have h1 := (List.chain'_cons.mp hc).1
          rw [if_neg h1, ih (List.chain'_cons.mp hc).2]

theorem bucketLasts_idem (f : α → Int) (m : Int) (l : List α) :
    bucketLasts f m (bucketLasts f m l) = bucketLasts f m l :=
  bucketLasts_of_chain_ne f m _ (bucketLasts_chain_ne f m l)

theorem inHourlyTier_ts {now ts : Int} (h : inHourlyTier now ts = true) :
    now - HOURLY_RETENTION_DAYS * 24 * 60 * 60 * 1000 ≤ ts := by
  unfold inHourlyTier at h
  exact of_decide_eq_true h

theorem inSixHourTier_ts {now ts : Int} (h : inSixHourTier now ts = true) :
    now - SIX_HOUR_RETENTION_DAYS * 24 * 60 * 60 * 1000 ≤ ts ∧
      ts < now - HOURLY_RETENTION_DAYS * 24 * 60 * 60 * 1000 := by
  unfold inSixHourTier inHourlyTier at h
  simp only [Bool.and_eq_true, Bool.not_eq_true', decide_eq_false_iff_not,
    decide_eq_true_eq] at h
  exact ⟨h.2, by omega⟩

theorem inDailyTier_ts {now ts : Int} (h : inDailyTier now ts = true) :
    ts < now - SIX_HOUR_RETENTION_DAYS * 24 * 60 * 60 * 1000 := by
  unfold inDailyTier inHourlyTier at h
  simp only [Bool.and_eq_true, Bool.not_eq_true', decide_eq_false_iff_not] at h
  omega

theorem tier_disjoint (now ts : Int) :
    (inHourlyTier now ts = true → inSixHourTier now ts = false ∧ inDailyTier now ts = false)
    ∧ (inSixHourTier now ts = true → inHourlyTier now ts = false ∧ inDailyTier now ts = false)
    ∧ (inDailyTier now ts = true → inHourlyTier now ts = false ∧ inSixHourTier now ts = false) := by
  by_cases h7 : now - HOURLY_RETENTION_DAYS * 24 * 60 * 60 * 1000 ≤ ts <;>
    by_cases h30 : now - SIX_HOUR_RETENTION_DAYS * 24 * 60 * 60 * 1000 ≤ ts <;>
    simp [inHourlyTier, inSixHourTier, inDailyTier, h7, h30]

theorem thresholds_le (now : Int) :
    now - SIX_HOUR_RETENTION_DAYS * 24 * 60 * 60 * 1000 ≤
      now - HOURLY_RETENTION_DAYS * 24 * 60 * 60 * 1000 := by
  unfold SIX_HOUR_RETENTION_DAYS HOURLY_RETENTION_DAYS
  omega

theorem mem_agg_tier (f : α → Int) (l : List α) (p : α → Bool) (k : Int) :
    ∀ x ∈ aggregateSnapshots f (l.filter p) k, p x = true ∧ x ∈ l := by
  intro x hx
  rw [aggregateSnapshots_eq] at hx
  have hm := (bucketLasts_sublist f (k * 60 * 60 * 1000) (l.filter p)).subset hx
  exact ⟨(List.mem_filter.mp hm).2, (List.mem_filter.mp hm).1⟩

theorem retention_concat_sorted (f : α → Int) (now : Int) (l : List α)
    (hs : List.Pairwise (tsLe f) l) :
    List.Pairwise (tsLe f)
      (aggregateSnapshots f (l.filter (fun s => inDailyTier now (f s))) 24 ++
        (aggregateSnapshots f (l.filter (fun s => inSixHourTier now (f s))) 6 ++
          l.filter (fun s => inHourlyTier now (f s)))) := by
  have hD : List.Pairwise (tsLe f)
      (aggregateSnapshots f (l.filter (fun s => inDailyTier now (f s))) 24) := by
    rw [aggregateSnapshots_eq]
    exact List.Pairwise.sublist (bucketLasts_sublist f _ _) (hs.filter _)
  have hS : List.Pairwise (tsLe f)
      (aggregateSnapshots f (l.filter (fun s => inSixHourTier now (f s))) 6) := by
    rw [aggregateSnapshots_eq]
    exact List.Pairwise.sublist (bucketLasts_sublist f _ _) (hs.filter _)
  have hH : List.Pairwise (tsLe f) (l.filter (fun s => inHourlyTier now (f s))) :=
    hs.filter _
  rw [List.pairwise_append]
  refine ⟨hD, ?_, ?_⟩
  · rw [List.pairwise_append]
    refine ⟨hS, hH, ?_⟩
    intro a ha b hb
    have ha' := (mem_agg_tier f l _ 6 a ha).1
    have hb' := (List.mem_filter.mp hb).2
    have h1 := (inSixHourTier_ts ha').2
    have h2 := inHourlyTier_ts hb'
    exact le_of_lt (lt_of_lt_of_le h1 h2)
  · intro a ha b hb
    have ha' := (mem_agg_tier f l _ 24 a ha).1
    have h1 := inDailyTier_ts ha'
    rcases List.mem_append.mp hb with hb | hb
    · have hb' := (mem_agg_tier f l _ 6 b hb).1
      have h2 := (inSixHourTier_ts hb').1
      exact le_of_lt (lt_of_lt_of_le h1 h2)
    · have hb' := (List.mem_filter.mp hb).2
      have h2 := inHourlyTier_ts hb'
      exact le_of_lt (lt_of_lt_of_le h1 (le_trans (thresholds_le now) h2))

theorem applyRetentionPolicy_eq (f : α → Int) (now : Int) (l : List α)
    (hs : List.Pairwise (tsLe f) l) :
    applyRetentionPolicy f now l =
      aggregateSnapshots f (l.filter (fun s => inDailyTier now (f s))) 24 ++
        (aggregateSnapshots f (l.filter (fun s => inSixHourTier now (f s))) 6 ++
          l.filter (fun s => inHourlyTier now (f s))) := by
  unfold applyRetentionPolicy
  simpa using List.Sorted.insertionSort_eq (retention_concat_sorted f now l hs)

theorem pairwise_bucket_of_sorted (f : α → Int) {m : Int} (hm : 0 < m) {l : List α}
    (hs : List.Pairwise (tsLe f) l) :
    List.Pairwise (fun x y => bucketStart m (f x) ≤ bucketStart m (f y)) l :=
  hs.imp fun h =>
    mul_le_mul_of_nonneg_right (Int.ediv_le_ediv hm h) (le_of_lt hm)

theorem mem_of_getLast?_eq : ∀ {l : List α} {y : α}, l.getLast? = some y → y ∈ l := by
  intro l
  induction l with
  | nil => intro y h; cases h
  | cons a rest ih =>
      intro y h
      cases rest with
      | nil =>
          simp only [List.getLast?_singleton, Option.some.injEq] at h
          simp [h]
      | cons b t =>
          rw [List.getLast?_cons_cons] at h
          exact List.mem_cons_of_mem a (ih h)

theorem getLast?_cons_of_ne_nil (a : α) {l : List α} (h : l ≠ []) :
    (a :: l).getLast? = l.getLast? := by
  cases l with
  | nil => exact absurd rfl h
  | cons b t => exact List.getLast?_cons_cons

theorem sorted_le_getLast (f : α → Int) :
    ∀ (l : List α), List.Pairwise (tsLe f) l → ∀ x ∈ l, ∀ y, l.getLast? = some y →
      f x ≤ f y := by
  intro l
  induction l with
  | nil => intro _ x hx; exact absurd hx (List.not_mem_nil x)
  | cons a rest ih =>
      intro hp x hx y hy
      cases rest with
      | nil =>
          have hxa : x = a := by simpa using hx
          have hya : y = a := by
            simpa only [List.getLast?_singleton, Option.some.injEq, eq_comm] using hy
          rw [hxa, hya]
      | cons b rest2 =>
          rw [List.getLast?_cons_cons] at hy
          rcases List.mem_cons.mp hx with rfl | hx'
          · exact (List.pairwise_cons.mp hp).1 y (mem_of_getLast?_eq hy)
          · exact ih (List.pairwise_cons.mp hp).2 x hx' y hy

theorem bucketLasts_filter_bucket (f : α → Int) (m b : Int) :
    ∀ l : List α,
      List.Pairwise (fun x y => bucketStart m (f x) ≤ bucketStart m (f y)) l →
      (bucketLasts f m l).filter (fun x => decide (bucketStart m (f x) = b)) =
        ((l.filter (fun x => decide (bucketStart m (f x) = b))).getLast?).toList := by
  intro l
  induction l with
  | nil => intro _; rfl
  | cons s rest ih =>
      intro hp
      have hp1 := (List.pairwise_cons.mp hp).1
      have hp2 := (List.pairwise_cons.mp hp).2
      cases rest with
      | nil =>
          by_cases hsb : bucketStart m (f s) = b <;>
            simp [bucketLasts, List.filter_cons, hsb]
      | cons t rest2 =>
          rw [bucketLasts_cons₂_eq]
          by_cases hb : bucketStart m (f s) = bucketStart m (f t)
          · rw [if_pos hb, ih hp2]
            by_cases hsb : bucketStart m (f s) = b
            · have htb : bucketStart m (f t) = b := by rw [← hb]; exact hsb
              have hft : List.filter (fun x => decide (bucketStart m (f x) = b)) (t :: rest2) =
                  t :: List.filter (fun x => decide (bucketStart m (f x) = b)) rest2 := by
                rw [List.filter_cons, if_pos (by simpa using htb)]
              have hfs : List.filter (fun x => decide (bucketStart m (f x) = b))
                    (s :: t :: rest2) =
                  s :: List.filter (fun x => decide (bucketStart m (f x) = b)) (t :: rest2) := by
                rw [List.filter_cons, if_pos (by simpa using hsb)]
              rw [hfs, getLast?_cons_of_ne_nil s (by rw [hft]; exact List.cons_ne_nil _ _)]
            · have hfs : List.filter (fun x => decide (bucketStart m (f x) = b))
                    (s :: t :: rest2) =
                  List.filter (fun x => decide (bucketStart m (f x) = b)) (t :: rest2) := by
                rw [List.filter_cons, if_neg (by simpa using hsb)]
              rw [hfs]
          · rw [if_neg hb]
            by_cases hsb : bucketStart m (f s) = b
            · have hst : bucketStart m (f s) ≤ bucketStart m (f t) :=
                hp1 t (List.mem_cons_self t rest2)
              have hnone : ∀ y ∈ t :: rest2, ¬ bucketStart m (f y) = b := by
                intro y hy hyb
                rcases List.mem_cons.mp hy with rfl | hy'
                · exact hb (by rw [hyb, hsb])
                · have h2 : bucketStart m (f t) ≤ bucketStart m (f y) :=
                    (List.pairwise_cons.mp hp2).1 y hy'
                  exact hb (le_antisymm hst (by rw [hsb, ← hyb]; exact h2))
              have hrest_nil :
                  List.filter (fun x => decide (bucketStart m (f x) = b)) (t :: rest2) = [] :=
                List.filter_eq_nil_iff.mpr (by
                  intro y hy
                  simpa using hnone y hy)
              have hsub_nil :
                  List.filter (fun x => decide (bucketStart m (f x) = b))
                    (bucketLasts f m (t :: rest2)) = [] :=
                List.filter_eq_nil_iff.mpr (by
                  intro y hy
                  have := (bucketLasts_sublist f m (t :: rest2)).subset hy
                  simpa using hnone y this)
              have hL : List.filter (fun x => decide (bucketStart m (f x) = b))
                    (s :: bucketLasts f m (t :: rest2)) =
                  s :: List.filter (fun x => decide (bucketStart m (f x) = b))
                    (bucketLasts f m (t :: rest2)) := by
                rw [List.filter_cons, if_pos (by simpa using hsb)]
              have hR : List.filter (fun x => decide (bucketStart m (f x) = b))
                    (s :: t :: rest2) =
                  s :: List.filter (fun x => decide (bucketStart m (f x) = b)) (t :: rest2) := by
                rw [List.filter_cons, if_pos (by simpa using hsb)]
              rw [hL, hR, hsub_nil, hrest_nil]
              rfl
            · have hL : List.filter (fun x => decide (bucketStart m (f x) = b))
                    (s :: bucketLasts f m (t :: rest2)) =
                  List.filter (fun x => decide (bucketStart m (f x) = b))
                    (bucketLasts f m (t :: rest2)) := by
                rw [List.filter_cons, if_neg (by simpa using hsb)]
              have hR : List.filter (fun x => decide (bucketStart m (f x) = b))
                    (s :: t :: rest2) =
                  List.filter (fun x => decide (bucketStart m (f x) = b)) (t :: rest2) := by
                rw [List.filter_cons, if_neg (by simpa using hsb)]
              rw [hL, hR, ih hp2]

theorem retention_filter_six (s : List AbsSnap) (now : Int)
    (hs : List.Pairwise (tsLe AbsSnap.timestamp) s) (b : Int) :
    (applyRetentionPolicy AbsSnap.timestamp now s).filter
        (fun x => inSixHourTier now x.timestamp &&
          decide (bucketStart (6 * 60 * 60 * 1000) x.timestamp = b)) =
      ((s.filter (fun x => inSixHourTier now x.timestamp &&
          decide (bucketStart (6 * 60 * 60 * 1000) x.timestamp = b))).getLast?).toList := by
  rw [applyRetentionPolicy_eq AbsSnap.timestamp now s hs, List.filter_append,
    List.filter_append]
  have hD0 : (aggregateSnapshots AbsSnap.timestamp
      (s.filter (fun x => inDailyTier now x.timestamp)) 24).filter
        (fun x => inSixHourTier now x.timestamp &&
          decide (bucketStart (6 * 60 * 60 * 1000) x.timestamp = b)) = [] := by
    apply List.filter_eq_nil_iff.mpr
    intro y hy
    have h1 := (mem_agg_tier AbsSnap.timestamp s _ 24 y hy).1
    have h2 := ((tier_disjoint now y.timestamp).2.2 h1).2
    simp [h2]
  have hH0 : (s.filter (fun x => inHourlyTier now x.timestamp)).filter
        (fun x => inSixHourTier now x.timestamp &&
          decide (bucketStart (6 * 60 * 60 * 1000) x.timestamp = b)) = [] := by
    apply List.filter_eq_nil_iff.mpr
    intro y hy
    have h1 := (List.mem_filter.mp hy).2
    have h2 := ((tier_disjoint now y.timestamp).1 h1).1
    simp [h2]
  have hmono : List.Pairwise (fun x y : AbsSnap =>
      bucketStart (6 * 60 * 60 * 1000) x.timestamp ≤
        bucketStart (6 * 60 * 60 * 1000) y.timestamp)
      (s.filter (fun x => inSixHourTier now x.timestamp)) :=
    pairwise_bucket_of_sorted AbsSnap.timestamp (by norm_num) (hs.filter _)
  have hcg : ∀ x ∈ bucketLasts AbsSnap.timestamp (6 * 60 * 60 * 1000)
      (s.filter (fun x => inSixHourTier now x.timestamp)),
      (inSixHourTier now x.timestamp &&
        decide (bucketStart (6 * 60 * 60 * 1000) x.timestamp = b)) =
      decide (bucketStart (6 * 60 * 60 * 1000) x.timestamp = b) := by
    intro x hx
    have hx' := (bucketLasts_sublist _ _ _).subset hx
    have h6 := (List.mem_filter.mp hx').2
    simp [h6]
  have hS : (aggregateSnapshots AbsSnap.timestamp
      (s.filter (fun x => inSixHourTier now x.timestamp)) 6).filter
        (fun x => inSixHourTier now x.timestamp &&
          decide (bucketStart (6 * 60 * 60 * 1000) x.timestamp = b)) =
      (((s.filter (fun x => inSixHourTier now x.timestamp)).filter
        (fun x => decide (bucketStart (6 * 60 * 60 * 1000) x.timestamp = b))).getLast?).toList := by
    rw [aggregateSnapshots_eq, List.filter_congr hcg]
    exact bucketLasts_filter_bucket AbsSnap.timestamp (6 * 60 * 60 * 1000) b _ hmono
  have hsp : (s.filter (fun x => inSixHourTier now x.timestamp)).filter
        (fun x => decide (bucketStart (6 * 60 * 60 * 1000) x.timestamp = b)) =
      s.filter (fun x => inSixHourTier now x.timestamp &&
        decide (bucketStart (6 * 60 * 60 * 1000) x.timestamp = b)) := by
    rw [List.filter_filter]
    exact List.filter_congr (fun x _ => Bool.and_comm _ _)
  rw [hD0, hH0, hS, hsp]
  simp

theorem retention_filter_daily (s : List AbsSnap) (now : Int)
    (hs : List.Pairwise (tsLe AbsSnap.timestamp) s) (b : Int) :
    (applyRetentionPolicy AbsSnap.timestamp now s).filter
        (fun x => inDailyTier now x.timestamp &&
          decide (bucketStart (24 * 60 * 60 * 1000) x.timestamp = b)) =
      ((s.filter (fun x => inDailyTier now x.timestamp &&
          decide (bucketStart (24 * 60 * 60 * 1000) x.timestamp = b))).getLast?).toList := by
  rw [applyRetentionPolicy_eq AbsSnap.timestamp now s hs, List.filter_append,
    List.filter_append]
  have hS0 : (aggregateSnapshots AbsSnap.timestamp
      (s.filter (fun x => inSixHourTier now x.timestamp)) 6).filter
        (fun x => inDailyTier now x.timestamp &&
          decide (bucketStart (24 * 60 * 60 * 1000) x.timestamp = b)) = [] := by
    apply List.filter_eq_nil_iff.mpr
    intro y hy
    have h1 := (mem_agg_tier AbsSnap.timestamp s _ 6 y hy).1
    have h2 := ((tier_disjoint now y.timestamp).2.1 h1).2
    simp [h2]
  have hH0 : (s.filter (fun x => inHourlyTier now x.timestamp)).filter
        (fun x => inDailyTier now x.timestamp &&
          decide (bucketStart (24 * 60 * 60 * 1000) x.timestamp = b)) = [] := by
    apply List.filter_eq_nil_iff.mpr
    intro y hy
    have h1 := (List.mem_filter.mp hy).2
    have h2 := ((tier_disjoint now y.timestamp).1 h1).2
    simp [h2]
  have hmono : List.Pairwise (fun x y : AbsSnap =>
      bucketStart (24 * 60 * 60 * 1000) x.timestamp ≤
        bucketStart (24 * 60 * 60 * 1000) y.timestamp)
      (s.filter (fun x => inDailyTier now x.timestamp)) :=
    pairwise_bucket_of_sorted AbsSnap.timestamp (by norm_num) (hs.filter _)
  have hcg : ∀ x ∈ bucketLasts AbsSnap.timestamp (24 * 60 * 60 * 1000)
      (s.filter (fun x => inDailyTier now x.timestamp)),
      (inDailyTier now x.timestamp &&
        decide (bucketStart (24 * 60 * 60 * 1000) x.timestamp = b)) =
      decide (bucketStart (24 * 60 * 60 * 1000) x.timestamp = b) := by
    intro x hx
    have hx' := (bucketLasts_sublist _ _ _).subset hx
    have hdy := (List.mem_filter.mp hx').2
    simp [hdy]
  have hD : (aggregateSnapshots AbsSnap.timestamp
      (s.filter (fun x => inDailyTier now x.timestamp)) 24).filter
        (fun x => inDailyTier now x.timestamp &&
          decide (bucketStart (24 * 60 * 60 * 1000) x.timestamp = b)) =
      (((s.filter (fun x => inDailyTier now x.timestamp)).filter
        (fun x => decide (bucketStart (24 * 60 * 60 * 1000) x.timestamp = b))).getLast?).toList := by
    rw [aggregateSnapshots_eq, List.filter_congr hcg]
    exact bucketLasts_filter_bucket AbsSnap.timestamp (24 * 60 * 60 * 1000) b _ hmono
  have hsp : (s.filter (fun x => inDailyTier now x.timestamp)).filter
        (fun x => decide (bucketStart (24 * 60 * 60 * 1000) x.timestamp = b)) =
      s.filter (fun x => inDailyTier now x.timestamp &&
        decide (bucketStart (24 * 60 * 60 * 1000) x.timestamp = b)) := by
    rw [List.filter_filter]
    exact List.filter_congr (fun x _ => Bool.and_comm _ _)
  rw [hS0, hH0, hD, hsp]
  simp

/-- C8: for every chronologically sorted absolute snapshot sequence and
reference time `now`, `applyRetentionPolicy` keeps every snapshot younger
than 7 days verbatim; within the 7-30-day tier each epoch-anchored 6-hour
bucket (key `floor(timestamp / 6h) * 6h`) keeps exactly the snapshot with
the latest timestamp in that bucket; snapshots older than 30 days are
treated the same with 24-hour buckets; and the result is sorted ascending
by timestamp. -/
theorem c8_retention_tiers (s : List AbsSnap) (now : Int)
    (hs : List.Pairwise (tsLe AbsSnap.timestamp) s) :
    List.Pairwise (tsLe AbsSnap.timestamp) (applyRetentionPolicy AbsSnap.timestamp now s)
    ∧ (∀ x ∈ s, now - x.timestamp < HOURLY_RETENTION_DAYS * 24 * 60 * 60 * 1000 →
        x ∈ applyRetentionPolicy AbsSnap.timestamp now s)
    ∧ (∀ b : Int,
        (applyRetentionPolicy AbsSnap.timestamp now s).filter
            (fun x => inSixHourTier now x.timestamp &&
              decide (bucketStart (6 * 60 * 60 * 1000) x.timestamp = b)) =
          ((s.filter (fun x => inSixHourTier now x.timestamp &&
              decide (bucketStart (6 * 60 * 60 * 1000) x.timestamp = b))).getLast?).toList)
    ∧ (∀ b : Int,
        (applyRetentionPolicy AbsSnap.timestamp now s).filter
            (fun x => inDailyTier now x.timestamp &&
              decide (bucketStart (24 * 60 * 60 * 1000) x.timestamp = b)) =
          ((s.filter (fun x => inDailyTier now x.timestamp &&
              decide (bucketStart (24 * 60 * 60 * 1000) x.timestamp = b))).getLast?).toList)
    ∧ (∀ x ∈ applyRetentionPolicy AbsSnap.timestamp now s, ∀ y ∈ s,
        inSixHourTier now x.timestamp = true → inSixHourTier now y.timestamp = true →
        bucketStart (6 * 60 * 60 * 1000) x.timestamp =
          bucketStart (6 * 60 * 60 * 1000) y.timestamp →
        y.timestamp ≤ x.timestamp)
    ∧ (∀ x ∈ applyRetentionPolicy AbsSnap.timestamp now s, ∀ y ∈ s,
        inDailyTier now x.timestamp = true → inDailyTier now y.timestamp = true →
        bucketStart (24 * 60 * 60 * 1000) x.timestamp =
          bucketStart (24 * 60 * 60 * 1000) y.timestamp →
        y.timestamp ≤ x.timestamp) := by
  refine ⟨?_, ?_, retention_filter_six s now hs, retention_filter_daily s now hs, ?_, ?_⟩
  · rw [applyRetentionPolicy_eq AbsSnap.timestamp now s hs]
    exact retention_concat_sorted AbsSnap.timestamp now s hs
  · intro x hx hage
    have hH : inHourlyTier now x.timestamp = true := by
      unfold inHourlyTier
      unfold HOURLY_RETENTION_DAYS at hage ⊢
      exact decide_eq_true (by omega)
    rw [applyRetentionPolicy_eq AbsSnap.timestamp now s hs]
    exact List.mem_append.mpr (Or.inr (List.mem_append.mpr
      (Or.inr (List.mem_filter.mpr ⟨hx, hH⟩))))
  · intro x hxo y hys hx6 hy6 hbk
    have hxmem : x ∈ (applyRetentionPolicy AbsSnap.timestamp now s).filter
        (fun z => inSixHourTier now z.timestamp &&
          decide (bucketStart (6 * 60 * 60 * 1000) z.timestamp =
            bucketStart (6 * 60 * 60 * 1000) x.timestamp)) :=
      List.mem_filter.mpr ⟨hxo, by simp [hx6]⟩
    rw [retention_filter_six s now hs (bucketStart (6 * 60 * 60 * 1000) x.timestamp)] at hxmem
    have hlast := Option.mem_def.mp (Option.mem_toList.mp hxmem)
    have hymem : y ∈ s.filter (fun z => inSixHourTier now z.timestamp &&
        decide (bucketStart (6 * 60 * 60 * 1000) z.timestamp =
          bucketStart (6 * 60 * 60 * 1000) x.timestamp)) :=
      List.mem_filter.mpr ⟨hys, by
        simp only [hy6, Bool.true_and]
        exact decide_eq_true hbk.symm⟩
    exact sorted_le_getLast AbsSnap.timestamp _ (hs.filter _) y hymem x hlast
  · intro x hxo y hys hxd hyd hbk
    have hxmem : x ∈ (applyRetentionPolicy AbsSnap.timestamp now s).filter
        (fun z => inDailyTier now z.timestamp &&
          decide (bucketStart (24 * 60 * 60 * 1000) z.timestamp =
            bucketStart (24 * 60 * 60 * 1000) x.timestamp)) :=
      List.mem_filter.mpr ⟨hxo, by simp [hxd]⟩
    rw [retention_filter_daily s now hs (bucketStart (24 * 60 * 60 * 1000) x.timestamp)] at hxmem
    have hlast := Option.mem_def.mp (Option.mem_toList.mp hxmem)
    have hymem : y ∈ s.filter (fun z => inDailyTier now z.timestamp &&
        decide (bucketStart (24 * 60 * 60 * 1000) z.timestamp =
          bucketStart (24 * 60 * 60 * 1000) x.timestamp)) :=
      List.mem_filter.mpr ⟨hys, by
        simp only [hyd, Bool.true_and]
        exact decide_eq_true hbk.symm⟩
    exact sorted_le_getLast AbsSnap.timestamp _ (hs.filter _) y hymem x hlast

theorem c8_retention_tiers_witness :
    List.Pairwise (tsLe AbsSnap.timestamp)
      [⟨0, 1, 1, 1, 1, 1⟩, ⟨3600000, 2, 2, 2, 2, 2⟩,
       ⟨1296000000, 3, 3, 3, 3, 3⟩, ⟨3369600000, 4, 4, 4, 4, 4⟩]
    ∧ List.Pairwise (tsLe AbsSnap.timestamp)
      (applyRetentionPolicy AbsSnap.timestamp 3456000000
        [⟨0, 1, 1, 1, 1, 1⟩, ⟨3600000, 2, 2, 2, 2, 2⟩,
         ⟨1296000000, 3, 3, 3, 3, 3⟩, ⟨3369600000, 4, 4, 4, 4, 4⟩]) :=
  ⟨by decide,
   (c8_retention_tiers
     [⟨0, 1, 1, 1, 1, 1⟩, ⟨3600000, 2, 2, 2, 2, 2⟩,
      ⟨1296000000, 3, 3, 3, 3, 3⟩, ⟨3369600000, 4, 4, 4, 4, 4⟩]
     3456000000 (by decide)).1⟩

/-- C9: applying the retention policy twice with the same reference time
gives the same result as applying it once, for every chronologically
sorted snapshot sequence. -/
theorem c9_retention_idempotent (s : List AbsSnap) (now : Int)
    (hs : List.Pairwise (tsLe AbsSnap.timestamp) s) :
    applyRetentionPolicy AbsSnap.timestamp now
        (applyRetentionPolicy AbsSnap.timestamp now s) =
      applyRetentionPolicy AbsSnap.timestamp now s := by
  have heq := applyRetentionPolicy_eq AbsSnap.timestamp now s hs
  have hsort : List.Pairwise (tsLe AbsSnap.timestamp)
      (applyRetentionPolicy AbsSnap.timestamp now s) := by
    rw [heq]
    exact retention_concat_sorted AbsSnap.timestamp now s hs
  have hD : ∀ y ∈ aggregateSnapshots AbsSnap.timestamp
      (s.filter (fun x => inDailyTier now x.timestamp)) 24,
      inDailyTier now y.timestamp = true :=
    fun y hy => (mem_agg_tier AbsSnap.timestamp s _ 24 y hy).1
  have hS : ∀ y ∈ aggregateSnapshots AbsSnap.timestamp
      (s.filter (fun x => inSixHourTier now x.timestamp)) 6,
      inSixHourTier now y.timestamp = true :=
    fun y hy => (mem_agg_tier AbsSnap.timestamp s _ 6 y hy).1
  have hH : ∀ y ∈ s.filter (fun x => inHourlyTier now x.timestamp),
      inHourlyTier now y.timestamp = true :=
    fun y hy => (List.mem_filter.mp hy).2
  have hfdD : (aggregateSnapshots AbsSnap.timestamp
      (s.filter (fun x => inDailyTier now x.timestamp)) 24).filter
        (fun x => inDailyTier now x.timestamp) =
      aggregateSnapshots AbsSnap.timestamp
        (s.filter (fun x => inDailyTier now x.timestamp)) 24 :=
    List.filter_eq_self.mpr hD
  have hfdS : (aggregateSnapshots AbsSnap.timestamp
      (s.filter (fun x => inSixHourTier now x.timestamp)) 6).filter
        (fun x => inDailyTier now x.timestamp) = [] :=
    List.filter_eq_nil_iff.mpr
      (fun y hy => by simp [((tier_disjoint now y.timestamp).2.1 (hS y hy)).2])
  have hfdH : (s.filter (fun x => inHourlyTier now x.timestamp)).filter
        (fun x => inDailyTier now x.timestamp) = [] :=
    List.filter_eq_nil_iff.mpr
      (fun y hy => by simp [((tier_disjoint now y.timestamp).1 (hH y hy)).2])
  have hfd : (applyRetentionPolicy AbsSnap.timestamp now s).filter
      (fun x => inDailyTier now x.timestamp) =
      aggregateSnapshots AbsSnap.timestamp
        (s.filter (fun x => inDailyTier now x.timestamp)) 24 := by
    rw [heq, List.filter_append, List.filter_append, hfdD, hfdS, hfdH]
    simp
  have hfsD : (aggregateSnapshots AbsSnap.timestamp
      (s.filter (fun x => inDailyTier now x.timestamp)) 24).filter
        (fun x => inSixHourTier now x.timestamp) = [] :=
    List.filter_eq_nil_iff.mpr
      (fun y hy => by simp [((tier_disjoint now y.timestamp).2.2 (hD y hy)).2])
  have hfsS : (aggregateSnapshots AbsSnap.timestamp
      (s.filter (fun x => inSixHourTier now x.timestamp)) 6).filter
        (fun x => inSixHourTier now x.timestamp) =
      aggregateSnapshots AbsSnap.timestamp
        (s.filter (fun x => inSixHourTier now x.timestamp)) 6 :=
    List.filter_eq_self.mpr hS
  have hfsH : (s.filter (fun x => inHourlyTier now x.timestamp)).filter
        (fun x => inSixHourTier now x.timestamp) = [] :=
    List.filter_eq_nil_iff.mpr
      (fun y hy => by simp [((tier_disjoint now y.timestamp).1 (hH y hy)).1])
  have hfs : (applyRetentionPolicy AbsSnap.timestamp now s).filter
      (fun x => inSixHourTier now x.timestamp) =
      aggregateSnapshots AbsSnap.timestamp
        (s.filter (fun x => inSixHourTier now x.timestamp)) 6 := by
    rw [heq, List.filter_append, List.filter_append, hfsD, hfsS, hfsH]
    simp
  have hfhD : (aggregateSnapshots AbsSnap.timestamp
      (s.filter (fun x => inDailyTier now x.timestamp)) 24).filter
        (fun x => inHourlyTier now x.timestamp) = [] :=
    List.filter_eq_nil_iff.mpr
      (fun y hy => by simp [((tier_disjoint now y.timestamp).2.2 (hD y hy)).1])
  have hfhS : (aggregateSnapshots AbsSnap.timestamp
      (s.filter (fun x => inSixHourTier now x.timestamp)) 6).filter
        (fun x => inHourlyTier now x.timestamp) = [] :=
    List.filter_eq_nil_iff.mpr
      (fun y hy => by simp [((tier_disjoint now y.timestamp).2.1 (hS y hy)).1])
  have hfhH : (s.filter (fun x => inHourlyTier now x.timestamp)).filter
        (fun x => inHourlyTier now x.timestamp) =
      s.filter (fun x => inHourlyTier now x.timestamp) :=
    List.filter_eq_self.mpr hH
  have hfh : (applyRetentionPolicy AbsSnap.timestamp now s).filter
      (fun x => inHourlyTier now x.timestamp) =
      s.filter (fun x => inHourlyTier now x.timestamp) := by
    rw [heq, List.filter_append, List.filter_append, hfhD, hfhS, hfhH]
    simp
  have hD2 : aggregateSnapshots AbsSnap.timestamp
      (aggregateSnapshots AbsSnap.timestamp
        (s.filter (fun x => inDailyTier now x.timestamp)) 24) 24 =
      aggregateSnapshots AbsSnap.timestamp
        (s.filter (fun x => inDailyTier now x.timestamp)) 24 := by
    rw [aggregateSnapshots_eq AbsSnap.timestamp
      (s.filter (fun x => inDailyTier now x.timestamp)) 24, aggregateSnapshots_eq]
    exact bucketLasts_idem AbsSnap.timestamp _ _
  have hS2 : aggregateSnapshots AbsSnap.timestamp
      (aggregateSnapshots AbsSnap.timestamp
        (s.filter (fun x => inSixHourTier now x.timestamp)) 6) 6 =
      aggregateSnapshots AbsSnap.timestamp
        (s.filter (fun x => inSixHourTier now x.timestamp)) 6 := by
    rw [aggregateSnapshots_eq AbsSnap.timestamp
      (s.filter (fun x => inSixHourTier now x.timestamp)) 6, aggregateSnapshots_eq]
    exact bucketLasts_idem AbsSnap.timestamp _ _
  rw [applyRetentionPolicy_eq AbsSnap.timestamp now _ hsort, hfd, hfs, hfh, hD2, hS2]
  exact heq.symm

theorem c9_retention_idempotent_witness :
    applyRetentionPolicy AbsSnap.timestamp 3456000000
        (applyRetentionPolicy AbsSnap.timestamp 3456000000
          [⟨0, 1, 1, 1, 1, 1⟩, ⟨3600000, 2, 2, 2, 2, 2⟩,
           ⟨1296000000, 3, 3, 3, 3, 3⟩, ⟨3369600000, 4, 4, 4, 4, 4⟩]) =
      applyRetentionPolicy AbsSnap.timestamp 3456000000
        [⟨0, 1, 1, 1, 1, 1⟩, ⟨3600000, 2, 2, 2, 2, 2⟩,
         ⟨1296000000, 3, 3, 3, 3, 3⟩, ⟨3369600000, 4, 4, 4, 4, 4⟩] :=
  c9_retention_idempotent
    [⟨0, 1, 1, 1, 1, 1⟩, ⟨3600000, 2, 2, 2, 2, 2⟩,
     ⟨1296000000, 3, 3, 3, 3, 3⟩, ⟨3369600000, 4, 4, 4, 4, 4⟩]
    3456000000 (by decide)

/-! ### Entity preservation (C4) and no-op suppression (C5) -/

/-- Existing document of the C4 example run: one tracked entity with id "1"
and a one-point history. -/
def c4Doc : Document :=
  { username := "u", lastUpdated := some 0,
    totalSnapshots := [],
    images := [{ id := "1", name := "n", url := "v", thumbnailUrl := "w",
                 createdAt := 0,
                 snapshots := [{ timestamp := 0, likes := some 5, hearts := some 0,
                                 laughs := some 0, cries := some 0,
                                 comments := some 0 }] }] }

/-- Fresh fetch of the C4 example run: a single upstream image with id "2";
the tracked entity "1" is absent from the fetch. -/
def c4Api : ApiImage :=
  { id := "2", url := "t", createdAt := 100, metaPrompt := none,
    stats := some { likeCount := some 3, heartCount := some 0, laughCount := some 0,
                    cryCount := some 0, commentCount := some 0 } }

/-- C4 counterexample: in a concrete saved run the existing entity "1" is
absent from the fresh fetch, and the saved document's entity list is
exactly the fetched entity "2" — entity "1" and its history are dropped
from the document, falsifying the claim that entities absent from the
fetch are carried forward unchanged and never deleted. -/
theorem c4_entity_preservation_counterexample :
    c4Doc.images.map ImageEntry.id = ["1"]
    ∧ (match runMerge "u" c4Doc [c4Api] 3456000000 3456000000 with
       | RunOutcome.saved d => some (d.images.map ImageEntry.id)
       | _ => none) = some ["2"] := by
  exact ⟨rfl, by decide⟩

theorem processImages_map_id (ts now : Int) (apiImages : List ApiImage)
    (ex : List ImageEntry) :
    ((processImages ts now apiImages ex).1).map ImageEntry.id =
      apiImages.map ApiImage.id := by
  unfold processImages
  rw [List.map_map, List.map_map]
  rfl

/-- C4 amended: every saved document's entity list consists exactly of the
freshly fetched entities, id for id in fetch order; an entity present in
the existing document but absent from the fresh fetch is dropped from the
saved document rather than carried forward. -/
theorem runMerge_eq (username : String) (existing : Document)
    (apiImages : List ApiImage) (ts now : Int) :
    runMerge username existing apiImages ts now =
      if apiImages.length = 0 then RunOutcome.noImages
      else
        finalizeRun
          (pushTotalSnapshot existing.totalSnapshots
            (processImages ts now apiImages existing.images).2).length
          { username := username
            lastUpdated := some (processImages ts now apiImages existing.images).2.timestamp
            totalSnapshots := retainTotals now
              (pushTotalSnapshot existing.totalSnapshots
                (processImages ts now apiImages existing.images).2)
            images := (processImages ts now apiImages existing.images).1 } := rfl

theorem c4_entity_preservation_amended (username : String) (existing : Document)
    (apiImages : List ApiImage) (ts now : Int) (doc : Document)
    (h : runMerge username existing apiImages ts now = RunOutcome.saved doc) :
    doc.images.map ImageEntry.id = apiImages.map ApiImage.id := by
  rw [runMerge_eq] at h
  by_cases hz : apiImages.length = 0
  · rw [if_pos hz] at h
    exact RunOutcome.noConfusion h
  · rw [if_neg hz] at h
    unfold finalizeRun at h
    split_ifs at h with hc
    have hdoc := (RunOutcome.saved.injEq _ _).mp h
    rw [← hdoc]
    exact processImages_map_id ts now apiImages existing.images

theorem c4_entity_preservation_amended_witness :
    (match runMerge "u" c4Doc [c4Api] 3456000000 3456000000 with
      | RunOutcome.saved d => d
      | _ => c4Doc).images.map ImageEntry.id = [c4Api].map ApiImage.id :=
  c4_entity_preservation_amended "u" c4Doc [c4Api] 3456000000 3456000000 _ (by decide)

/-- Existing document of the C5 example run: one tracked entity whose
stored history already matches the fresh counters, and an aggregate
history whose resolved last point equals the aggregate of the run. -/
def c5Doc : Document :=
  { username := "u", lastUpdated := some 0,
    totalSnapshots := [{ timestamp := 0, likes := some 5, hearts := some 0,
                         laughs := some 0, cries := some 0, comments := some 0,
                         imageCount := some 1 }],
    images := [{ id := "1", name := "n", url := "v", thumbnailUrl := "w",
                 createdAt := 0,
                 snapshots := [{ timestamp := 0, likes := some 5, hearts := some 0,
                                 laughs := some 0, cries := some 0,
                                 comments := some 0 }] }] }

/-- Fresh fetch of the C5 example run: the tracked image with unchanged
counters. -/
def c5Api : ApiImage :=
  { id := "1", url := "t", createdAt := 0, metaPrompt := none,
    stats := some { likeCount := some 5, heartCount := some 0, laughCount := some 0,
                    cryCount := some 0, commentCount := some 0 } }

/-- C5 counterexample: a concrete run whose corrected aggregate counters
equal the resolved last point of the existing aggregate history — yet the
saved aggregate history gains a new point carrying the run's timestamp
(the explicitly marked all-zero delta), falsifying the no-op-suppression
claim for the aggregate total. -/
theorem c5_noop_suppression_counterexample :
    (processImages 3456000000 3456000000 [c5Api] c5Doc.images).2 =
      { timestamp := 3456000000, likes := 5, hearts := 0, laughs := 0,
        cries := 0, comments := 0, imageCount := 1 }
    ∧ resolveSnapshot c5Doc.totalSnapshots (c5Doc.totalSnapshots.length - 1) =
      ⟨0, 5, 0, 0, 0, 0⟩
    ∧ (match runMerge "u" c5Doc [c5Api] 3456000000 3456000000 with
       | RunOutcome.saved d => some (d.totalSnapshots.map EncSnap.timestamp)
       | _ => none) = some [0, 3456000000] := by
  refine ⟨by decide, by decide, by decide⟩

theorem mkEntityDelta_some_of_ne (ts : Int) (last curr : Counters) (h : last ≠ curr) :
    ((mkEntityDelta ts last curr).dl.isSome || (mkEntityDelta ts last curr).dh.isSome ||
      (mkEntityDelta ts last curr).dla.isSome || (mkEntityDelta ts last curr).dc.isSome ||
      (mkEntityDelta ts last curr).dco.isSome) = true := by
  obtain ⟨l1, l2, l3, l4, l5⟩ := last
  obtain ⟨c1, c2, c3, c4, c5⟩ := curr
  simp only [ne_eq, Counters.mk.injEq, not_and] at h
  simp only [mkEntityDelta]
  by_cases e1 : c1 - l1 = 0 <;> by_cases e2 : c2 - l2 = 0 <;>
    by_cases e3 : c3 - l3 = 0 <;> by_cases e4 : c4 - l4 = 0 <;>
    by_cases e5 : c5 - l5 = 0 <;>
    simp [e1, e2, e3, e4, e5] <;> omega

/-- C5 amended: for every entity the append-if-changed step appends nothing
when the corrected counters equal the last resolved absolute snapshot, and
appends exactly one point carrying the run timestamp when they differ or
the history is empty; the aggregate history, however, is appended on every
run — `pushTotalSnapshot` always adds one point carrying the run's
timestamp (an explicit all-zero `_d` delta when nothing changed). -/
theorem c5_noop_suppression_amended (ts : Int) (snapshots : List EncSnap)
    (ls : Option AbsSnap) (corrected : Counters) (totals : List EncSnap) (t : TotalSnap) :
    (∀ l : AbsSnap, ls = some l → l.counters = corrected →
        mergeEntityHistory ts snapshots ls corrected = snapshots)
    ∧ (∀ l : AbsSnap, ls = some l → l.counters ≠ corrected →
        ∃ d : EncSnap, mergeEntityHistory ts snapshots ls corrected = snapshots ++ [d]
          ∧ d.timestamp = ts)
    ∧ (ls = none → mergeEntityHistory ts snapshots ls corrected =
        snapshots ++ [(withTimestamp ts corrected).toEnc])
    ∧ ∃ e : EncSnap, pushTotalSnapshot totals t = totals ++ [e]
        ∧ e.timestamp = t.timestamp := by
  refine ⟨?_, ?_, ?_, ?_⟩
  · intro l hls heq
    subst hls
    simp only [mergeEntityHistory]
    rw [if_neg (by simp [heq])]
  · intro l hls hne
    subst hls
    refine ⟨mkEntityDelta ts l.counters corrected, ?_, rfl⟩
    simp only [mergeEntityHistory]
    rw [if_pos hne, if_pos (mkEntityDelta_some_of_ne ts l.counters corrected hne)]
  · intro hls
    subst hls
    rfl
  · unfold pushTotalSnapshot
    split_ifs with hl
    · exact ⟨totalDelta t (resolveSnapshot totals (totals.length - 1)), rfl, rfl⟩
    · exact ⟨totalToEnc t, rfl, rfl⟩

theorem c5_noop_suppression_amended_witness :
    mergeEntityHistory 100 [{ timestamp := 0, likes := some 5 }]
        (some ⟨0, 5, 0, 0, 0, 0⟩) ⟨5, 0, 0, 0, 0⟩ =
      [{ timestamp := 0, likes := some 5 }]
    ∧ ∃ e : EncSnap,
        pushTotalSnapshot [{ timestamp := 0, likes := some 5 }]
          ⟨100, 5, 0, 0, 0, 0, 1⟩ =
        [{ timestamp := 0, likes := some 5 }] ++ [e] ∧ e.timestamp = 100 :=
  ⟨(c5_noop_suppression_amended 100 [{ timestamp := 0, likes := some 5 }]
      (some ⟨0, 5, 0, 0, 0, 0⟩) ⟨5, 0, 0, 0, 0⟩ [] ⟨0, 0, 0, 0, 0, 0, 0⟩).1
      ⟨0, 5, 0, 0, 0, 0⟩ rfl rfl,
   (c5_noop_suppression_amended 100 [] none ⟨0, 0, 0, 0, 0⟩
      [{ timestamp := 0, likes := some 5 }] ⟨100, 5, 0, 0, 0, 0, 1⟩).2.2.2⟩
